import Mathlib

/-!
Verification development for the MultiModalRAG repository.

Shallow embedding of the document ingestion and retrieval pipeline:
`src/config.py`, `src/document_processor.py`, `src/vector_store.py`,
`src/query_processor.py`.  Page text and chunk contents are modelled as
`List Char`; query-side strings as `String`.  Floating-point embedding
values never participate in any arithmetic relevant to the claims, so
they are represented by the stand-in type `EmbVal := Int`.  External
collaborators (embedding service, Pinecone index, Gemini model) are
passed in as function parameters returning `Except`, mirroring the
Python calls that may raise.
-/

namespace MultiModalRAG

/-- Stand-in for IEEE floats: the properties proved here depend only on
the count and arrangement of embedding values, never on float arithmetic. -/
abbrev EmbVal := Int

namespace Config

/-- `Config.CHUNK_SIZE = 1000` (config.py line 38). -/
def CHUNK_SIZE : Nat := 1000

/-- `Config.CHUNK_OVERLAP = 200` (config.py line 39). -/
def CHUNK_OVERLAP : Nat := 200

/-- `Config.GEMINI_EMBEDDING_DIM = 768` (config.py line 22). -/
def GEMINI_EMBEDDING_DIM : Nat := 768

end Config

namespace DocumentProcessor

/-- A processed page as built by `DocumentProcessor.process_pdf`
(document_processor.py lines 48-53). -/
structure Page where
  page_number : Nat
  text : List Char
  image_descriptions : List (List Char)
  full_content : List Char
  deriving DecidableEq, Repr

/-- A chunk as built by `DocumentProcessor.chunk_document`
(document_processor.py lines 175-180). -/
structure Chunk where
  chunk_id : Nat
  page_number : Nat
  content : List Char
  has_images : Bool
  deriving DecidableEq, Repr

/-- One iteration of the Python loop
`for i in range(0, len(text), step): chunk = text[i:i + CHUNK_SIZE]`
(document_processor.py lines 173-174).  `fuel` bounds the number of loop
iterations; `text.length + 1` always suffices when `0 < step` (a Python
`range` with step `0` raises `ValueError`, which cannot happen under the
spec invariant `CHUNK_OVERLAP < CHUNK_SIZE`). -/
def chunkIter (size step : Nat) (text : List Char) : Nat → Nat → List (List Char)
  | _, 0 => []
  | i, fuel + 1 =>
    if i < text.length then ((text.drop i).take size) :: chunkIter size step text (i + step) fuel
    else []

/-- All windows emitted for one page text by the loop at
document_processor.py line 173, with `step = CHUNK_SIZE - CHUNK_OVERLAP`. -/
def pageWindows (size overlap : Nat) (text : List Char) : List (List Char) :=
  chunkIter size (size - overlap) text 0 (text.length + 1)

/-- The chunk records appended for one page: the body of the loop at
document_processor.py lines 175-181, with the globally increasing
`chunk_id` counter threaded through. -/
def mkChunks (pn : Nat) (hasImgs : Bool) : List (List Char) → Nat → List Chunk
  | [], _ => []
  | w :: ws, n =>
    { chunk_id := n, page_number := pn, content := w, has_images := hasImgs }
      :: mkChunks pn hasImgs ws (n + 1)

/-- The outer page loop of `chunk_document` (document_processor.py
lines 170-181); `has_images := len(page.get('image_descriptions', [])) > 0`. -/
def chunkDocGo (size overlap : Nat) : List Page → Nat → List Chunk
  | [], _ => []
  | p :: ps, n =>
    mkChunks p.page_number (decide (0 < p.image_descriptions.length))
        (pageWindows size overlap p.full_content) n
      ++ chunkDocGo size overlap ps (n + (pageWindows size overlap p.full_content).length)

/-- `DocumentProcessor.chunk_document` (document_processor.py lines
165-183), parametrised by the configured chunk size and overlap
(`Config.CHUNK_SIZE`, `Config.CHUNK_OVERLAP` in the deployed program). -/
def chunk_document (size overlap : Nat) (pages : List Page) : List Chunk :=
  chunkDocGo size overlap pages 0

/-- Removing the first `overlap` characters from every window except the
first: the inverse operation the spec describes for reconstructing page
text from its chunks. -/
def stripOverlaps (overlap : Nat) : List (List Char) → List (List Char)
  | [] => []
  | w :: ws => w :: ws.map (List.drop overlap)

theorem mkChunks_length (pn : Nat) (b : Bool) (ws : List (List Char)) (n : Nat) :
    (mkChunks pn b ws n).length = ws.length := by
  induction ws generalizing n with
  | nil => rfl
  | cons w ws ih => simp [mkChunks, ih]

theorem mkChunks_map_content (pn : Nat) (b : Bool) (ws : List (List Char)) (n : Nat) :
    (mkChunks pn b ws n).map Chunk.content = ws := by
  induction ws generalizing n with
  | nil => rfl
  | cons w ws ih => simp [mkChunks, ih]

theorem mem_mkChunks (pn : Nat) (b : Bool) (ws : List (List Char)) (n : Nat)
    (c : Chunk) (hc : c ∈ mkChunks pn b ws n) :
    c.page_number = pn ∧ c.has_images = b := by
  induction ws generalizing n with
  | nil => simp [mkChunks] at hc
  | cons w ws ih =>
    simp only [mkChunks, List.mem_cons] at hc
    rcases hc with rfl | hc
    · exact ⟨rfl, rfl⟩
    · exact ih _ hc

theorem chunkIter_length (size step : Nat) (hstep : 0 < step) (text : List Char) :
    ∀ fuel i, text.length - i < fuel →
      (chunkIter size step text i fuel).length = (text.length - i + step - 1) / step := by
  intro fuel
  induction fuel with
  | zero => intro i h; omega
  | succ fuel ih =>
    intro i h
    by_cases hi : i < text.length
    · have hrec := ih (i + step) (by omega)
      simp only [chunkIter, if_pos hi, List.length_cons, hrec]
      have hd : 1 ≤ text.length - i := by omega
      set d := text.length - i with hdd
      have h1 : d + step - 1 = (d - 1) + step := by omega
      have h2 : text.length - (i + step) = d - step := by omega
      rw [h2, h1, Nat.add_div_right _ hstep]
      by_cases hds : step ≤ d
      · have : d - step + step - 1 = d - 1 := by omega
        rw [this]
      · have h3 : d - step = 0 := by omega
        rw [h3]
        have h4 : (0 + step - 1) / step = 0 := Nat.div_eq_of_lt (by omega)
        have h5 : (d - 1) / step = 0 := Nat.div_eq_of_lt (by omega)
        rw [h4, h5]
    · simp only [chunkIter, if_neg hi, List.length_nil]
      have h4 : text.length - i = 0 := by omega
      rw [h4]
      exact (Nat.div_eq_of_lt (by omega)).symm

theorem chunkIter_drop_flatten (size overlap : Nat) (h : overlap < size) (text : List Char) :
    ∀ fuel i, text.length - i < fuel →
      ((chunkIter size (size - overlap) text i fuel).map (List.drop overlap)).flatten
        = text.drop (i + overlap) := by
  intro fuel
  induction fuel with
  | zero => intro i hf; omega
  | succ fuel ih =>
    intro i hf
    by_cases hi : i < text.length
    · have hstep : 0 < size - overlap := by omega
      have hrec := ih (i + (size - overlap)) (by omega)
      simp only [chunkIter, if_pos hi, List.map_cons, List.flatten_cons, hrec]
      have h1 : (List.take size (List.drop i text)).drop overlap
          = List.take (size - overlap) (List.drop (i + overlap) text) := by
        rw [List.drop_take, List.drop_drop]
      have h3 : List.drop (i + (size - overlap) + overlap) text
          = List.drop (size - overlap) (List.drop (i + overlap) text) := by
        rw [List.drop_drop]
        congr 1
        omega
      rw [h1, h3, List.take_append_drop]
    · simp only [chunkIter, if_neg hi, List.map_nil, List.flatten_nil]
      rw [List.drop_eq_nil_of_le (by omega)]

theorem chunk_document_singleton (size overlap : Nat) (page : Page) :
    chunk_document size overlap [page]
      = mkChunks page.page_number (decide (0 < page.image_descriptions.length))
          (pageWindows size overlap page.full_content) 0 := by
  simp [chunk_document, chunkDocGo]

/-- **C2 (amended).** For every page text of length `L`, with chunk size
`C` and overlap `O` such that `O < C`, `chunk_document` emits exactly
`ceil(L / (C - O))` chunks for that page (expressed in natural-number
arithmetic as `(L + (C - O) - 1) / (C - O)`; in particular `0` chunks
when `L = 0`). -/
theorem C2_chunk_count (size overlap : Nat) (page : Page) (h : overlap < size) :
    (chunk_document size overlap [page]).length
      = (page.full_content.length + (size - overlap) - 1) / (size - overlap) := by
  rw [chunk_document_singleton, mkChunks_length, pageWindows,
    chunkIter_length size (size - overlap) (by omega) _ _ _ (by omega)]
  simp

/-- **C2 witness.** Concrete instance of `C2_chunk_count`: a 5-character
page with the configured `CHUNK_SIZE = 1000` and `CHUNK_OVERLAP = 200`. -/
theorem C2_chunk_count_witness :
    (200 : Nat) < 1000 ∧
      (chunk_document 1000 200 [⟨1, "hello".toList, [], "hello".toList⟩]).length
        = (("hello".toList.length : Nat) + (1000 - 200) - 1) / (1000 - 200) :=
  ⟨by decide, C2_chunk_count 1000 200 ⟨1, "hello".toList, [], "hello".toList⟩ (by decide)⟩

/-- **C2 counterexample.** The claim as stated is false on the code: for
`L = 2`, `C = 2`, `O = 1` (so `L ≤ C`) the claim predicts exactly 1 chunk
but `chunk_document` emits 2; and for `L = 5`, `C = 3`, `O = 1` the claim
predicts `ceil((5-1)/2) = 2` chunks but `chunk_document` emits 3. -/
theorem C2_counterexample :
    (chunk_document 2 1 [⟨1, "ab".toList, [], "ab".toList⟩]).length ≠ 1
      ∧ "ab".toList.length ≤ 2
      ∧ (chunk_document 3 1 [⟨1, "abcde".toList, [], "abcde".toList⟩]).length ≠ (5 - 1 + 2 - 1) / 2 := by
  decide

/-- **C3 (amended).** Every chunk produced by `chunk_document` carries
`has_images = true` iff its source page's `image_descriptions` list is
non-empty (the code tests only the length of the list; descriptions that
are empty strings still count). -/
theorem mem_chunkDocGo (size overlap : Nat) (pages : List Page) :
    ∀ n c, c ∈ chunkDocGo size overlap pages n →
      ∃ p ∈ pages, c.page_number = p.page_number
        ∧ c.has_images = decide (0 < p.image_descriptions.length) := by
  induction pages with
  | nil => intro n c hc; simp [chunkDocGo] at hc
  | cons p ps ih =>
    intro n c hc
    simp only [chunkDocGo, List.mem_append] at hc
    rcases hc with hc | hc
    · obtain ⟨h1, h2⟩ := mem_mkChunks _ _ _ _ _ hc
      exact ⟨p, List.mem_cons_self _ _, h1, h2⟩
    · obtain ⟨q, hq, hq1, hq2⟩ := ih _ _ hc
      exact ⟨q, List.mem_cons_of_mem _ hq, hq1, hq2⟩

theorem C3_has_images (size overlap : Nat) (pages : List Page) (c : Chunk)
    (hc : c ∈ chunk_document size overlap pages) :
    ∃ p ∈ pages, c.page_number = p.page_number
      ∧ (c.has_images = true ↔ p.image_descriptions ≠ []) := by
  rw [chunk_document] at hc
  obtain ⟨p, hp, h1, h2⟩ := mem_chunkDocGo size overlap pages 0 c hc
  refine ⟨p, hp, h1, ?_⟩
  rw [h2]
  simp [List.length_pos]

/-- A page whose single image description is the empty string: the list
`image_descriptions` is non-empty but contains no non-empty description. -/
def pageC3 : Page := ⟨1, "a".toList, [[]], "a".toList⟩

/-- **C3 counterexample.** On a page whose only image description is the
empty string, `chunk_document` sets `has_images = true` (the code tests
`len(image_descriptions) > 0`), falsifying the claim that `has_images`
holds iff the page had at least one non-empty image description. -/
theorem C3_counterexample :
    ¬ (∀ c ∈ chunk_document Config.CHUNK_SIZE Config.CHUNK_OVERLAP [pageC3],
        (c.has_images = true ↔ ∃ d ∈ pageC3.image_descriptions, d ≠ [])) := by
  decide

/-- A one-page document with a single (non-empty) image description. -/
def pageW3 : Page := ⟨1, "a".toList, ["desc".toList], "a".toList⟩

/-- **C3 witness.** Concrete instance of `C3_has_images`. -/
theorem C3_has_images_witness :
    (⟨0, 1, "a".toList, true⟩ : Chunk) ∈ chunk_document 1000 200 [pageW3]
      ∧ ∃ p ∈ [pageW3], (⟨0, 1, "a".toList, true⟩ : Chunk).page_number = p.page_number
          ∧ ((⟨0, 1, "a".toList, true⟩ : Chunk).has_images = true ↔ p.image_descriptions ≠ []) :=
  ⟨by decide, C3_has_images 1000 200 [pageW3] ⟨0, 1, "a".toList, true⟩ (by decide)⟩

/-- **C4 (confirmed).** For every page text, with overlap `O < C`,
concatenating the contents of the chunks `chunk_document` emits for that
page, after removing the first `O` characters from every chunk except
the first, reconstructs the page text exactly. -/
theorem C4_reconstruct (size overlap : Nat) (page : Page) (h : overlap < size) :
    (stripOverlaps overlap ((chunk_document size overlap [page]).map Chunk.content)).flatten
      = page.full_content := by
  rw [chunk_document_singleton, mkChunks_map_content, pageWindows]
  rcases hT : page.full_content with _ | ⟨c, rest⟩
  · simp [chunkIter, stripOverlaps]
  · simp only [List.length_cons]
    rw [chunkIter]
    rw [if_pos (by simp)]
    simp only [List.drop_zero, Nat.zero_add, stripOverlaps, List.flatten_cons]
    rw [chunkIter_drop_flatten size overlap h (c :: rest) (rest.length + 1) (size - overlap)
      (by simp; omega)]
    have hso : size - overlap + overlap = size := by omega
    rw [hso, List.take_append_drop]

/-- **C4 witness.** Concrete instance of `C4_reconstruct`. -/
theorem C4_reconstruct_witness :
    (200 : Nat) < 1000 ∧
      (stripOverlaps 200 ((chunk_document 1000 200
          [⟨1, "hello".toList, [], "hello".toList⟩]).map Chunk.content)).flatten
        = "hello".toList :=
  ⟨by decide, C4_reconstruct 1000 200 ⟨1, "hello".toList, [], "hello".toList⟩ (by decide)⟩

/-- `DocumentProcessor._get_image_description` (document_processor.py
lines 102-163).  `modelAvailable` models the `hasattr`/truthiness check
on `self.gemini_model`; `outcome` models the body of the `try` block up
to `response.text` (its `Except.error` case covers image-open, resize
and Gemini-call exceptions).  Every failure is caught inside this
function, so it is total and never propagates an exception. -/
def get_image_description (modelAvailable : Bool) (outcome : Except String String) : String :=
  if !modelAvailable then "[Image processing not available]"
  else
    match outcome with
    | Except.ok t =>
      if t = "" then "[Image description error: Empty response from Gemini model]"
      else t.trim
    | Except.error e => "[Image description error: " ++ e ++ "]"

/-- One embedded image of a page, as seen by the loop in
`_extract_and_describe_images` (document_processor.py lines 74-98). -/
structure ImgTask where
  /-- `true` iff `extract_image` and the temporary-file write succeed
  (a `false` models an exception raised before the temporary file
  exists, which the `except` clause turns into `continue`). -/
  extractOk : Bool
  /-- Outcome of the describe call for this image. -/
  descOutcome : Except String String
  deriving Repr

/-- The temporary file path `data/images/page_{p+1}_img_{i+1}.png`
(document_processor.py lines 82-85). -/
def imagePath (page_num imgIndex : Nat) : String :=
  "page_" ++ toString (page_num + 1) ++ "_img_" ++ toString (imgIndex + 1) ++ ".png"

/-- The image loop of `_extract_and_describe_images` (document_processor.py
lines 74-99), instrumented with the set of temporary files currently on
disk (`fs`): the file write conses the path, `os.remove` erases it.
Returns the final file set and the collected descriptions. -/
def extractLoop (modelAvailable : Bool) (page_num : Nat) :
    List ImgTask → Nat → List String → List String × List String
  | [], _, fs => (fs, [])
  | img :: rest, imgIndex, fs =>
    if img.extractOk then
      let path := imagePath page_num imgIndex
      let fs1 := path :: fs
      let desc := get_image_description modelAvailable img.descOutcome
      let fs2 := fs1.erase path
      let r := extractLoop modelAvailable page_num rest (imgIndex + 1) fs2
      (r.1, desc :: r.2)
    else
      extractLoop modelAvailable page_num rest (imgIndex + 1) fs

/-- `DocumentProcessor._extract_and_describe_images`: the descriptions
collected for a page (the observable return value). -/
def extract_and_describe_images (modelAvailable : Bool) (page_num : Nat)
    (imgs : List ImgTask) : List String :=
  (extractLoop modelAvailable page_num imgs 0 []).2

/-- **C9 (confirmed).** After processing any prefix of a page's images,
the set of temporary files on disk equals the set before the loop
started: each temporary file that was created is deleted before the
loop moves to the next image, regardless of whether the description
request succeeded or failed (description failures are caught inside
`_get_image_description` and can never skip the `os.remove` call). -/
theorem C9_temp_files_deleted (modelAvailable : Bool) (page_num : Nat)
    (imgs : List ImgTask) (k imgIndex : Nat) (fs : List String) :
    (extractLoop modelAvailable page_num (imgs.take k) imgIndex fs).1 = fs := by
  induction imgs generalizing k imgIndex fs with
  | nil => simp [List.take_nil, extractLoop]
  | cons img rest ih =>
    cases k with
    | zero => simp [extractLoop]
    | succ k =>
      simp only [List.take_succ_cons, extractLoop]
      by_cases hx : img.extractOk
      · simp only [if_pos hx, List.erase_cons_head]
        exact ih k (imgIndex + 1) fs
      · simp only [if_neg hx]
        exact ih k (imgIndex + 1) fs

end DocumentProcessor

namespace VectorStore

open DocumentProcessor

/-- Metadata of a stored vector record as built by `upsert_documents`
(vector_store.py lines 118-122). -/
structure RecordMetadata where
  page_number : Nat
  has_images : Bool
  content : List Char
  deriving DecidableEq, Repr

/-- A vector record as sent to `index.upsert` (vector_store.py
lines 115-123). -/
structure VectorRecord where
  id : String
  values : List EmbVal
  metadata : RecordMetadata
  deriving DecidableEq, Repr

/-- The truncation applied before calling the embedding service
(vector_store.py lines 83-85). -/
def truncateForEmbedding (text : List Char) : List Char :=
  if 10000 < text.length then text.take 10000 else text

/-- `VectorStore.get_embedding` (vector_store.py lines 80-104).  `svc`
models `genai.embed_content`: its `Except.error` case covers both a
raised exception and a response with no `embedding` key (which the code
turns into a raised `ValueError`, caught by the same `except`).  `rng`
models the stream of `random.random()` draws used for the fallback
vector.  The function is total: no failure propagates to the caller. -/
def get_embedding (svc : List Char → Except String (List EmbVal)) (rng : Nat → EmbVal)
    (text : List Char) : List EmbVal :=
  match svc (truncateForEmbedding text) with
  | Except.ok emb => emb
  | Except.error _ => (List.range Config.GEMINI_EMBEDDING_DIM).map rng

/-- **C5 (confirmed).** Whenever the embedding service fails,
`get_embedding` returns the pseudo-random fallback vector, whose length
is the configured embedding dimensionality; being a total function into
`List EmbVal`, it propagates no error to its caller. -/
theorem C5_fallback_dimension (svc : List Char → Except String (List EmbVal))
    (rng : Nat → EmbVal) (text : List Char) (e : String)
    (h : svc (truncateForEmbedding text) = Except.error e) :
    get_embedding svc rng text = (List.range Config.GEMINI_EMBEDDING_DIM).map rng
      ∧ (get_embedding svc rng text).length = Config.GEMINI_EMBEDDING_DIM := by
  unfold get_embedding
  rw [h]
  exact ⟨rfl, by simp⟩

/-- **C5 witness.** Concrete instance of `C5_fallback_dimension`. -/
theorem C5_fallback_dimension_witness :
    (fun _ : List Char => (Except.error "boom" : Except String (List EmbVal)))
        (truncateForEmbedding "q".toList) = Except.error "boom"
      ∧ (get_embedding (fun _ => Except.error "boom") (fun _ => (0 : EmbVal)) "q".toList
            = (List.range Config.GEMINI_EMBEDDING_DIM).map (fun _ => (0 : EmbVal))
          ∧ (get_embedding (fun _ => Except.error "boom") (fun _ => (0 : EmbVal))
              "q".toList).length = Config.GEMINI_EMBEDDING_DIM) :=
  ⟨rfl, C5_fallback_dimension (fun _ => Except.error "boom") (fun _ => (0 : EmbVal))
    "q".toList "boom" rfl⟩

/-- The vector record built in the loop body of `upsert_documents`
(vector_store.py lines 111-124): `id` is the string form of `chunk_id`,
`values` the embedding of the chunk content, metadata carries the page
number, the image flag and the content truncated to 500 characters. -/
def mkRecord (embed : List Char → List EmbVal) (doc : Chunk) : VectorRecord :=
  { id := toString doc.chunk_id
    values := embed doc.content
    metadata :=
      { page_number := doc.page_number
        has_images := doc.has_images
        content := doc.content.take 500 } }

/-- The accumulation loop of `upsert_documents` (vector_store.py
lines 110-133): vectors accumulate and are sent whenever
`len(vectors) >= batch_size`; any remainder is flushed after the loop.
The return value is the sequence of batches passed to `index.upsert`,
in call order. -/
def upsertLoop (svc : List Char → Except String (List EmbVal)) (rng : Nat → EmbVal)
    (batch_size : Nat) : List Chunk → List VectorRecord → List (List VectorRecord)
  | [], vectors => if vectors.isEmpty then [] else [vectors]
  | doc :: docs, vectors =>
    let vector := mkRecord (get_embedding svc rng) doc
    let vectors1 := vectors ++ [vector]
    if batch_size ≤ vectors1.length then
      vectors1 :: upsertLoop svc rng batch_size docs []
    else
      upsertLoop svc rng batch_size docs vectors1

/-- `VectorStore.upsert_documents` (vector_store.py lines 106-133),
observed as the sequence of batches sent to the index. -/
def upsert_documents (svc : List Char → Except String (List EmbVal)) (rng : Nat → EmbVal)
    (documents : List Chunk) (batch_size : Nat) : List (List VectorRecord) :=
  upsertLoop svc rng batch_size documents []

theorem upsertLoop_spec (svc : List Char → Except String (List EmbVal)) (rng : Nat → EmbVal)
    (batch_size : Nat) (h : 1 ≤ batch_size) :
    ∀ (docs : List Chunk) (acc : List VectorRecord), acc.length < batch_size →
      (upsertLoop svc rng batch_size docs acc).flatten
          = acc ++ docs.map (mkRecord (get_embedding svc rng))
        ∧ ∀ b ∈ upsertLoop svc rng batch_size docs acc, b.length ≤ batch_size ∧ b ≠ [] := by
  intro docs
  induction docs with
  | nil =>
    intro acc hacc
    by_cases he : acc.isEmpty
    · rw [List.isEmpty_iff] at he
      subst he
      simp [upsertLoop]
    · simp only [upsertLoop, if_neg he]
      refine ⟨by simp, ?_⟩
      intro b hb
      simp only [List.mem_singleton] at hb
      subst hb
      exact ⟨by omega, by simpa using he⟩
  | cons doc docs ih =>
    intro acc hacc
    simp only [upsertLoop]
    by_cases hfull : batch_size ≤ (acc ++ [mkRecord (get_embedding svc rng) doc]).length
    · rw [if_pos hfull]
      obtain ⟨ih1, ih2⟩ := ih [] (by simp only [List.length_nil]; omega)
      constructor
      · simp only [List.flatten_cons, ih1, List.nil_append, List.map_cons]
        simp
      · intro b hb
        simp only [List.mem_cons] at hb
        rcases hb with rfl | hb
        · constructor
          · simp only [List.length_append, List.length_singleton]
            omega
          · simp
        · exact ih2 b hb
    · rw [if_neg hfull]
      have hlen : (acc ++ [mkRecord (get_embedding svc rng) doc]).length < batch_size := by
        omega
      obtain ⟨ih1, ih2⟩ := ih _ hlen
      refine ⟨?_, ih2⟩
      rw [ih1]
      simp

/-- **C8 (amended).** For every list of chunks and every `batch_size ≥ 1`,
`upsert_documents` sends each chunk to the index exactly once, in order,
as a record with `id = toString chunk_id`, `values` the chunk's
embedding, and metadata `{page_number, has_images, content.take 500}`;
every batch sent has at most `batch_size` records (and is non-empty),
and the remainder is flushed at the end (nothing is left unsent). -/
theorem C8_upsert_batches (svc : List Char → Except String (List EmbVal)) (rng : Nat → EmbVal)
    (documents : List Chunk) (batch_size : Nat) (h : 1 ≤ batch_size) :
    (upsert_documents svc rng documents batch_size).flatten
        = documents.map (fun doc =>
            ({ id := toString doc.chunk_id
               values := get_embedding svc rng doc.content
               metadata :=
                 { page_number := doc.page_number
                   has_images := doc.has_images
                   content := doc.content.take 500 } } : VectorRecord))
      ∧ ∀ b ∈ upsert_documents svc rng documents batch_size,
          b.length ≤ batch_size ∧ b ≠ [] := by
  have := upsertLoop_spec svc rng batch_size h documents []
    (by simp only [List.length_nil]; omega)
  simpa [upsert_documents, mkRecord] using this

/-- **C8 witness.** Concrete instance of `C8_upsert_batches` at the
default `batch_size = 100` with a single chunk. -/
theorem C8_upsert_batches_witness :
    (1 : Nat) ≤ 100
      ∧ ((upsert_documents (fun _ => Except.ok [(1 : EmbVal)]) (fun _ => (0 : EmbVal))
              [⟨0, 1, "ab".toList, false⟩] 100).flatten
            = ([⟨0, 1, "ab".toList, false⟩] : List Chunk).map (fun doc =>
                ({ id := toString doc.chunk_id
                   values := get_embedding (fun _ => Except.ok [(1 : EmbVal)])
                     (fun _ => (0 : EmbVal)) doc.content
                   metadata :=
                     { page_number := doc.page_number
                       has_images := doc.has_images
                       content := doc.content.take 500 } } : VectorRecord))
          ∧ ∀ b ∈ upsert_documents (fun _ => Except.ok [(1 : EmbVal)]) (fun _ => (0 : EmbVal))
              [⟨0, 1, "ab".toList, false⟩] 100, b.length ≤ 100 ∧ b ≠ []) :=
  ⟨by decide, C8_upsert_batches (fun _ => Except.ok [(1 : EmbVal)]) (fun _ => (0 : EmbVal))
    [⟨0, 1, "ab".toList, false⟩] 100 (by decide)⟩

/-- **C8 counterexample.** The claim quantifies over every `batch_size`,
but at `batch_size = 0` the loop sends a batch of 1 record, which is not
"a batch of at most `batch_size` records". -/
theorem C8_counterexample :
    ∃ b ∈ upsert_documents (fun _ => Except.ok [(1 : EmbVal)]) (fun _ => (0 : EmbVal))
        [⟨0, 1, "ab".toList, false⟩] 0, ¬ b.length ≤ 0 := by
  decide

/-- Query-side metadata as returned by the remote index: any key may be
absent (`match.metadata` itself may even be `None`), so every field is
optional; readers use `.get(key, default)`. -/
structure Metadata where
  page_number : Option Nat
  has_images : Option Bool
  content : Option String
  deriving DecidableEq, Repr

/-- `{}`: the default used for `match.metadata or {}`. -/
def Metadata.emptyDict : Metadata := ⟨none, none, none⟩

/-- One provider match from `index.query` (vector_store.py line 151). -/
structure PMatch where
  id : String
  score : EmbVal
  metadata : Option Metadata
  deriving DecidableEq, Repr

/-- A formatted search result (vector_store.py lines 150-157). -/
structure SearchResult where
  id : String
  score : EmbVal
  metadata : Metadata
  content : String
  deriving DecidableEq, Repr

/-- The result-formatting loop of `search` (vector_store.py
lines 150-157): `metadata := match.metadata or {}` and
`content := (match.metadata or {}).get('content', '')`. -/
def formatMatch (m : PMatch) : SearchResult :=
  { id := m.id
    score := m.score
    metadata := m.metadata.getD Metadata.emptyDict
    content := (m.metadata.getD Metadata.emptyDict).content.getD "" }

/-- `VectorStore.search` (vector_store.py lines 135-163).  `indexQuery`
models `index.query` on the remote index; its `Except.error` case is any
exception raised inside the `try` block, which the `except` clause turns
into an empty result list.  The query embedding is computed *outside*
the `try`, but `get_embedding` is itself total, so `search` is total. -/
def search {Filter : Type} (svc : List Char → Except String (List EmbVal)) (rng : Nat → EmbVal)
    (indexQuery : List EmbVal → Nat → Option Filter → Except String (List PMatch))
    (query : String) (top_k : Nat) (filter_conditions : Option Filter) : List SearchResult :=
  let query_embedding := get_embedding svc rng query.toList
  match indexQuery query_embedding top_k filter_conditions with
  | Except.ok results => results.map formatMatch
  | Except.error _ => []

/-- **C6 (confirmed).** Whenever the index query inside `search` fails,
`search` returns the empty list; being a total function into
`List SearchResult`, it raises nothing to its caller.  (A failure of the
embedding service never surfaces inside `search` at all: `get_embedding`
replaces it with the fallback vector, per `C5_fallback_dimension`.) -/
theorem C6_search_empty_on_failure {Filter : Type}
    (svc : List Char → Except String (List EmbVal)) (rng : Nat → EmbVal)
    (indexQuery : List EmbVal → Nat → Option Filter → Except String (List PMatch))
    (query : String) (top_k : Nat) (filter_conditions : Option Filter) (e : String)
    (h : indexQuery (get_embedding svc rng query.toList) top_k filter_conditions
      = Except.error e) :
    search svc rng indexQuery query top_k filter_conditions = [] := by
  simp only [search]
  rw [h]

/-- **C6 witness.** Concrete instance of `C6_search_empty_on_failure`
with an index whose query call always raises. -/
theorem C6_search_empty_on_failure_witness :
    (fun (_ : List EmbVal) (_ : Nat) (_ : Option Unit) =>
          (Except.error "connection reset" : Except String (List PMatch)))
        (get_embedding (fun _ => Except.ok [(1 : EmbVal)]) (fun _ => (0 : EmbVal)) "q".toList)
        5 none = Except.error "connection reset"
      ∧ search (fun _ => Except.ok [(1 : EmbVal)]) (fun _ => (0 : EmbVal))
          (fun _ _ _ => Except.error "connection reset") "q" 5 (none : Option Unit) = [] :=
  ⟨rfl, C6_search_empty_on_failure (fun _ => Except.ok [(1 : EmbVal)]) (fun _ => (0 : EmbVal))
    (fun _ _ _ => Except.error "connection reset") "q" 5 none "connection reset" rfl⟩

end VectorStore

namespace QueryProcessor

open VectorStore

/-- A source attribution entry (query_processor.py lines 55-59).
`page = none` models the `'N/A'` default of
`metadata.get('page_number', 'N/A')`. -/
structure Source where
  page : Option Nat
  content : String
  has_images : Bool
  deriving DecidableEq, Repr

/-- The dict returned by `generate_response`.  `context = none` models a
returned dict with no `'context'` key at all (the early return at
query_processor.py lines 88-91), as opposed to `some []`. -/
structure Response where
  answer : String
  sources : List Source
  context : Option (List String)
  deriving DecidableEq, Repr

/-- A Gemini-style role-tagged turn (query_processor.py lines 101-116). -/
structure GMessage where
  role : String
  parts : List String
  deriving DecidableEq, Repr

/-- Observable outcome of one `generate_response` call: the returned
dict, the `contents` argument actually passed to
`gemini_model.generate_content` (`none` when no model call is made), and
the `formatted_messages` list the code builds at lines 96-116 (`none`
when that code is not reached). -/
structure GenResult where
  response : Response
  sent : Option GMessage
  formatted : Option (List GMessage)
  deriving DecidableEq, Repr

/-- Fixed no-match answer (query_processor.py line 43). -/
def noRelevantAnswer : String :=
  "I couldn\x27t find any relevant information to answer your question."

/-- Answer of the defensive model-unavailable branch
(query_processor.py line 89). -/
def modelUnavailableAnswer : String :=
  "Error: Gemini model is not available. Please check your API key and model configuration."

/-- System instruction (query_processor.py lines 67-69; the indentation
and line breaks of the Python triple-quoted literal are elided — no
claim depends on its internal whitespace). -/
def systemMessageContent : String :=
  "You are a helpful assistant that answers questions based on the provided context. If the context doesn\x27t contain the answer, say you don\x27t know. Be concise and accurate in your responses."

/-- Instruction appended to the system message when `use_vision` holds
and a retrieved source has visual content (query_processor.py line 84). -/
def visionSuffix : String :=
  " When describing visual content, be sure to include details from the image descriptions provided in the context."

/-- The fixed priming acknowledgement turn (query_processor.py line 107). -/
def ackText : String := "I understand and will assist with your request."

/-- Fixed quota-exhaustion answer (query_processor.py line 142). -/
def quotaAnswer : String :=
  "I\x27ve reached my API quota limit. Please check your Google AI Studio account for usage limits."

/-- Fixed access-trouble answer (query_processor.py line 144). -/
def accessTroubleAnswer : String :=
  "I\x27m having trouble accessing the AI model. Please verify your API key and permissions."

/-- Generic apology answer, to which the raw error text is appended
(query_processor.py line 146). -/
def genericErrorAnswer : String :=
  "I\x27m sorry, I encountered an error while generating a response. The error was: "

/-- The user message (query_processor.py lines 72-79; f-string
indentation elided). -/
def userMessageContent (context query : String) : String :=
  "Context:\n" ++ context ++ "\n\nQuestion: " ++ query
    ++ "\n\nAnswer the question based on the context above. If the context doesn\x27t contain the answer, say you don\x27t know."

/-- Page display for the context label:
`result['metadata'].get('page_number', 'N/A')` (query_processor.py
line 53). -/
def pageLabel (md : Metadata) : String :=
  match md.page_number with
  | some n => toString n
  | none => "N/A"

/-- One `[Source i+1, Page p]`-labelled context part (query_processor.py
lines 53-54). -/
def contextPart (i : Nat) (r : SearchResult) : String :=
  "[Source " ++ toString (i + 1) ++ ", Page " ++ pageLabel r.metadata ++ "]\n" ++ r.content

/-- One source attribution entry (query_processor.py lines 55-59):
page number (or absent), the content preview truncated to 500 characters
with an ellipsis always appended, and the visual-content flag. -/
def sourceEntry (r : SearchResult) : Source :=
  { page := r.metadata.page_number
    content := r.content.take 500 ++ "..."
    has_images := r.metadata.has_images.getD false }

/-- Keyword classification of a model error message
(query_processor.py lines 137-146): `str(e).lower()` is sniffed for
`"quota"`, then `"access"`/`"permission"`; `s in t` is modelled as
`(t.splitOn s).length > 1`. -/
def classifyError (e : String) : String :=
  let error_msg := e.toLower
  if (error_msg.splitOn "quota").length > 1 then quotaAnswer
  else if (error_msg.splitOn "access").length > 1
      || (error_msg.splitOn "permission").length > 1 then accessTroubleAnswer
  else genericErrorAnswer ++ e

/-- The answer computed from the model call outcome (query_processor.py
lines 119-146): an empty `response.text` raises
`ValueError("Empty response from Gemini model")`, caught by the same
`except` as any other model failure; success is stripped of surrounding
whitespace. -/
def modelAnswer (outcome : Except String String) : String :=
  match outcome with
  | Except.ok t => if t = "" then classifyError "Empty response from Gemini model" else t.trim
  | Except.error e => classifyError e

/-- `QueryProcessor.generate_response` (query_processor.py lines 27-152).
`searchFn` models `self.vector_store.search` (called with `top_k = 3`);
`modelAvailable` the `hasattr`/truthiness check on `self.gemini_model`
(always `true` for a successfully constructed `QueryProcessor`, whose
`__init__` re-raises on model-creation failure); `modelOutcome` the
`generate_content` call.  Mirrors the control flow faithfully, including
the fact that the `contents` actually passed to `generate_content` at
lines 119-123 is the single user turn, not the `formatted_messages`
list built at lines 96-116. -/
def generate_response (searchFn : String → Nat → List SearchResult)
    (modelAvailable : Bool) (modelOutcome : Except String String)
    (query : String) (use_vision : Bool) : GenResult :=
  let search_results := searchFn query 3
  if search_results.isEmpty then
    { response := { answer := noRelevantAnswer, sources := [], context := some [] }
      sent := none
      formatted := none }
  else
    let sources := search_results.map sourceEntry
    let context_parts := search_results.enum.map (fun p => contextPart p.1 p.2)
    let context := String.intercalate "\n\n" context_parts
    let systemContent :=
      if use_vision && sources.any (fun s => s.has_images) then
        systemMessageContent ++ visionSuffix
      else systemMessageContent
    let uContent := userMessageContent context query
    if !modelAvailable then
      { response := { answer := modelUnavailableAnswer, sources := sources, context := none }
        sent := none
        formatted := none }
    else
      { response :=
          { answer := modelAnswer modelOutcome
            sources := sources
            context := some context_parts }
        sent := some ⟨"user", [uContent]⟩
        formatted := some
          [⟨"user", [systemContent]⟩, ⟨"model", [ackText]⟩, ⟨"user", [uContent]⟩] }

/-- A concrete retrieved result whose source page has visual content. -/
def resVision : SearchResult := ⟨"0", 1, ⟨some 2, some true, some "chunk text"⟩, "chunk text"⟩

/-- **C1 (code bug).** At a call that reaches the model — one search
result with `has_images`, `use_vision = true`, model available — the
code builds the three-turn `formatted_messages` list whose head is the
priming turn carrying the system instruction with the vision suffix
appended, but the `contents` it actually passes to `generate_content`
is the single user turn only; that turn is not the priming turn, so
neither the system instruction nor the vision instruction is sent. -/
theorem C1_sent_prompt_lacks_priming_turn :
    (generate_response (fun _ _ => [resVision]) true (Except.ok "ans") "q" true).sent
        = some ⟨"user", [userMessageContent "[Source 1, Page 2]\nchunk text" "q"]⟩
      ∧ (generate_response (fun _ _ => [resVision]) true (Except.ok "ans") "q" true).formatted
          = some [⟨"user", [systemMessageContent ++ visionSuffix]⟩,
              ⟨"model", [ackText]⟩,
              ⟨"user", [userMessageContent "[Source 1, Page 2]\nchunk text" "q"]⟩]
      ∧ systemMessageContent ++ visionSuffix
          ≠ userMessageContent "[Source 1, Page 2]\nchunk text" "q" := by
  refine ⟨rfl, rfl, ?_⟩
  decide

/-- **C7 (confirmed).** Whenever retrieval returns no results,
`generate_response` returns the fixed no-relevant-information answer
with empty sources and empty context, passes nothing to the language
model, and never reaches the prompt-formatting code. -/
theorem C7_no_results_short_circuit (searchFn : String → Nat → List SearchResult)
    (modelAvailable : Bool) (modelOutcome : Except String String)
    (query : String) (use_vision : Bool) (h : searchFn query 3 = []) :
    generate_response searchFn modelAvailable modelOutcome query use_vision
      = { response := { answer := noRelevantAnswer, sources := [], context := some [] }
          sent := none
          formatted := none } := by
  simp [generate_response, h]

/-- **C7 witness.** Concrete instance of `C7_no_results_short_circuit`
with an empty index. -/
theorem C7_no_results_short_circuit_witness :
    (fun (_ : String) (_ : Nat) => ([] : List SearchResult)) "anything" 3 = []
      ∧ generate_response (fun _ _ => []) true (Except.ok "unused") "anything" false
          = { response := { answer := noRelevantAnswer, sources := [], context := some [] }
              sent := none
              formatted := none } :=
  ⟨rfl, C7_no_results_short_circuit (fun _ _ => []) true (Except.ok "unused")
    "anything" false rfl⟩

/-- **C10 (amended).** For every query and every value of `use_vision`,
provided the model handle is available — which holds for every
successfully constructed `QueryProcessor`, since `__init__` re-raises
when the model cannot be created — `generate_response` returns a
Response carrying all three fields, in particular a present `context`
sequence.  (The defensive model-unavailable branch returns a dict with
no `context` key; see `C10_counterexample`.) -/
theorem C10_response_has_three_fields (searchFn : String → Nat → List SearchResult)
    (modelAvailable : Bool) (modelOutcome : Except String String)
    (query : String) (use_vision : Bool) (h : modelAvailable = true) :
    ∃ ctx : List String,
      (generate_response searchFn modelAvailable modelOutcome query use_vision).response.context
        = some ctx := by
  subst h
  by_cases hres : (searchFn query 3).isEmpty
  · exact ⟨[], by simp [generate_response, hres]⟩
  · refine ⟨(searchFn query 3).enum.map (fun p => contextPart p.1 p.2), ?_⟩
    simp [generate_response, hres]

/-- **C10 witness.** Concrete instance of `C10_response_has_three_fields`. -/
theorem C10_response_has_three_fields_witness :
    true = true
      ∧ ∃ ctx : List String,
          (generate_response (fun _ _ => [resVision]) true (Except.ok "ans")
              "q" false).response.context = some ctx :=
  ⟨rfl, C10_response_has_three_fields (fun _ _ => [resVision]) true (Except.ok "ans")
    "q" false rfl⟩

/-- **C10 counterexample.** The claim as stated fails on the code's own
model-unavailable branch (query_processor.py lines 88-91): with a
non-empty search result and the model handle unavailable, the returned
dict has no `context` key at all. -/
theorem C10_counterexample :
    (generate_response (fun _ _ => [resVision]) false (Except.ok "ans")
        "q" false).response.context = none := by
  rfl

end QueryProcessor

end MultiModalRAG
